import Mathlib

/-!
Verification of the facility-extraction pipeline (新市區 shelter data).

The repository contains several near-duplicate implementations of the same
pipeline.  Each namespace below embeds the functions of one Python source
file.  Python strings (and latin1-decoded byte strings) are modelled as
`List Char`; Python `dict` objects that are built by successive assignment
are modelled as association lists where the most recent assignment is the
head (`lookupCm` returns the newest binding, mirroring dict lookup);
functions that can raise are modelled with `Except`/`Option`.  `zlib.decompress`
is an external primitive; stream-processing functions take it as an explicit
`inflate` parameter that returns `none` exactly when the Python call raises
`zlib.error` (the data is not valid deflate).
-/

/-- Conversion of a Lean string literal to the `List Char` model of Python strings. -/
def str (s : String) : List Char := s.toList

/-- Lookup in an association-list model of a Python dict (head = newest assignment). -/
def lookupCm : List (Nat × Nat) → Nat → Option Nat
  | [], _ => none
  | (k, v) :: rest, q => if k = q then some v else lookupCm rest q

/-- Value of a decimal digit character, as computed by Python `int(s)` per digit. -/
def digitVal (c : Char) : Nat := c.toNat - 48

/-- Python `int(s)` for a string of decimal digits. -/
def charsToNat (l : List Char) : Nat := l.foldl (fun a c => 10 * a + digitVal c) 0

/-- Value of one hexadecimal digit character (upper or lower case), as in Python `int(s, 16)`. -/
def hexDigitVal (c : Char) : Nat :=
  if c.isDigit then c.toNat - 48 else if 'a' ≤ c then c.toNat - 87 else c.toNat - 55

/-- Python `int(s, 16)` for a string of hex digits. -/
def hexVal (l : List Char) : Nat := l.foldl (fun a c => 16 * a + hexDigitVal c) 0

/-- Fuel-indexed decimal rendering step: most significant digits first.  Each step
divides the number by 10, so fuel = n + 1 always suffices; the fuel only makes the
recursion structural. -/
def natDigitsF : Nat → Nat → List Char
  | 0, _ => []
  | fuel + 1, n =>
    if n < 10 then [Nat.digitChar n]
    else natDigitsF fuel (n / 10) ++ [Nat.digitChar (n % 10)]

/-- Decimal rendering of a natural number, as Python `str(n)` / `f-string` formatting. -/
def natDigits (n : Nat) : List Char := natDigitsF (n + 1) n

/-- Python `str.strip()` with no arguments: drop whitespace from both ends. -/
def pyStrip (l : List Char) : List Char :=
  ((l.dropWhile Char.isWhitespace).reverse.dropWhile Char.isWhitespace).reverse

/-- Characters stripped by Python `bytes.strip(b"\r\n")`. -/
def isCRLF (c : Char) : Bool := c = '\r' || c = '\n'

/-- Python `bytes.strip(b"\r\n")` on a latin1-modelled byte string. -/
def stripCRLF (l : List Char) : List Char :=
  ((l.dropWhile isCRLF).reverse.dropWhile isCRLF).reverse

/-- Python `s.find(pat)`: index of the leftmost occurrence, `none` when absent (`-1` in Python). -/
def findSubIdx : List Char → List Char → Option Nat
  | [], pat => if pat.isEmpty then some 0 else none
  | c :: rest, pat =>
    if pat.isPrefixOf (c :: rest) then some 0 else (findSubIdx rest pat).map (· + 1)

/-- Python `pat in s` substring containment. -/
def containsSub (l pat : List Char) : Bool := (findSubIdx l pat).isSome

/-- Upper-case hexadecimal digit class `[0-9A-F]` used by the CMap / glyph regexes. -/
def isHexUp (c : Char) : Bool := c.isDigit || ('A' ≤ c && c ≤ 'F')

/-- Fuel-indexed scanner step for `re.findall(r"<([0-9A-F]+)>", s)`: a match needs a
`<`, a nonempty run of hex digits, and a closing `>`; scanning resumes after the
closing bracket, and positions without a match advance one character, as `finditer`
does.  Each step consumes at least one character, so fuel = input length suffices;
the fuel only makes the recursion structural. -/
def scanHexRunsF : Nat → List Char → List (List Char)
  | 0, _ => []
  | _ + 1, [] => []
  | fuel + 1, '<' :: rest =>
    if ((rest.drop (rest.takeWhile isHexUp).length).head? = some '>' ∧
        rest.takeWhile isHexUp ≠ []) then
      rest.takeWhile isHexUp :: scanHexRunsF fuel (rest.drop ((rest.takeWhile isHexUp).length + 1))
    else scanHexRunsF fuel rest
  | fuel + 1, _ :: rest => scanHexRunsF fuel rest

/-- Scanner for `re.findall(r"<([0-9A-F]+)>", s)`. -/
def scanHexRuns (l : List Char) : List (List Char) := scanHexRunsF l.length l

/-- Grouping of a hex string into 4-character glyph codes, as the stride-4 loop of
`decode_hex_string` (`for i in range(0, len(hex_string), 4)`); a trailing shorter
group is kept, as the Python slice is. -/
def chunk4 : List Char → List (List Char)
  | [] => []
  | [a] => [[a]]
  | [a, b] => [[a, b]]
  | [a, b, c] => [[a, b, c]]
  | a :: b :: c :: d :: rest => [a, b, c, d] :: chunk4 rest

/-- Python `str.isalnum` restricted to the character repertoire of this corpus:
ASCII alphanumerics plus CJK Unified Ideographs (which are alphanumeric for
Python's Unicode-aware `isalnum`); ASCII punctuation such as `-` and `?` is not
alphanumeric, exactly as in Python. -/
def pyIsAlnum (c : Char) : Bool := c.isAlphanum || (0x4E00 ≤ c.toNat && c.toNat ≤ 0x9FFF)

namespace ExtractFacilities

/-- The `Facility` dataclass of `scripts/extract_facilities.py` (slug defaults to `None`
and is not set by `parse_facilities`). -/
structure Facility where
  name : List Char
  address : List Char
  capacity : Nat
  branch : List Char
  district : Option (List Char)
  li : Option (List Char)
  slug : Option (List Char)
deriving DecidableEq

/-- The fixed boilerplate substrings tested by `should_skip` in `extract_lines`. -/
def boilerplate : List (List Char) :=
  [str "區別里別名稱地址", str "容量(可容", str "轄管分局",
   str "防空疏散避難設施一覽表", str "更新", str "第1頁", str "第2頁"]

/-- Claim-relevant predicate `should_skip` of `extract_lines`: Python tests
`pattern in line` (substring containment) for each fixed pattern. -/
def should_skip (line : List Char) : Bool := boilerplate.any (fun p => containsSub line p)

/-- The final filter of `extract_lines`: keep exactly the lines `should_skip` rejects. -/
def extract_lines_filter (lines : List (List Char)) : List (List Char) :=
  lines.filter (fun l => !should_skip l)

/-- Per-code decoding step of `decode_hex_string`: `chr(cmap.get(code, 0xFFFD))`. -/
def dhsCode (cmap : List (Nat × Nat)) (code : Nat) : Nat := (lookupCm cmap code).getD 0xFFFD

/-- `decode_hex_string`: split the hex string into 4-digit glyph codes and decode each
through the CMap with `0xFFFD` as fallback.  Output is the list of Unicode code points
(Python builds the same sequence as a `str`). -/
def decode_hex_string (hex_string : List Char) (cmap : List (Nat × Nat)) : List Nat :=
  (chunk4 hex_string).map (fun g => dhsCode cmap (hexVal g))

/-- One `bfrange` triple `<start> <end> <base>` of `load_cmap` (lines 62-64): assign
`mapping[code] = base + offset` for every `code` in `[start, end]`, in order. -/
def applyTriple (m : List (Nat × Nat)) : Nat × Nat × Nat → List (Nat × Nat)
  | (s, e, b) => (List.range (e + 1 - s)).foldl (fun acc o => (s + o, b + o) :: acc) m

/-- One `bfrange` array entry `<start> <end> [<d0> <d1> ...]` of `load_cmap`
(lines 66-71): assign `mapping[code] = entries[offset]` for every in-range code whose
offset is below the array length (`if offset < len(entries)`). -/
def applyArr (m : List (Nat × Nat)) : Nat × Nat × List Nat → List (Nat × Nat)
  | (s, e, ds) =>
    (List.range (e + 1 - s)).foldl
      (fun acc o => match ds.get? o with | some v => (s + o, v) :: acc | none => acc) m

/-- One `beginbfrange … endbfrange` block of `load_cmap`: all triple entries are
processed first, then all array entries, exactly as the two inner loops run. -/
def applyBlock (m : List (Nat × Nat))
    (blk : List (Nat × Nat × Nat) × List (Nat × Nat × List Nat)) : List (Nat × Nat) :=
  blk.2.foldl applyArr (blk.1.foldl applyTriple m)

/-- The mapping construction of `load_cmap` (lines 50-73) over the entries its regexes
extract: `bfchars` holds the `<src> <dst>` pairs of each `beginbfchar` section and
`blocks` the triple/array entries of each `beginbfrange` section (the regex lexing of
the section bodies is abstracted into these already-extracted entry lists).  The
function returns the mapping unconditionally: `load_cmap` contains no emptiness or
presence check and its signature has no error path. -/
def loadCmapBuild (bfchars : List (List (Nat × Nat)))
    (blocks : List (List (Nat × Nat × Nat) × List (Nat × Nat × List Nat))) :
    List (Nat × Nat) :=
  blocks.foldl applyBlock
    (bfchars.foldl (fun m sec => sec.foldl (fun acc p => (p.1, p.2) :: acc) m) [])

/-- The anchored terminal-token regex `re.compile(r"(\d+)(.+分局)$").match(line)`:
the line must end with `分局`, start with at least one digit, and leave at least one
character between the digits and the final `分局`.  The greedy `\d+` takes as many
leading digits as still leaves room for `.+分局`, so the digit group has length
`min p (len - 3)` where `p` is the maximal digit-prefix length.  Returns
`(int(group 1), group 2)` with `group 2` the whole remainder of the line. -/
def capBranchMatch (s : List Char) : Option (Nat × List Char) :=
  if 4 ≤ s.length ∧ 1 ≤ (s.takeWhile Char.isDigit).length ∧
      s.drop (s.length - 2) = str "分局" then
    some (charsToNat (s.take (min (s.takeWhile Char.isDigit).length (s.length - 3))),
          s.drop (min (s.takeWhile Char.isDigit).length (s.length - 3)))
  else none

/-- The buffer-splitting loop of `parse_facilities` (lines 136-140): each pending line
goes to the address accumulator once a line starting with `臺南市` has been seen
(`if entry_line.startswith("臺南市") or address_parts`), otherwise to the name
accumulator. -/
def splitPendingAux : List (List Char) → List (List Char) → List (List Char) →
    List (List Char) × List (List Char)
  | [], ns, as_ => (ns, as_)
  | e :: rest, ns, as_ =>
    if (str "臺南市").isPrefixOf e || !as_.isEmpty then splitPendingAux rest ns (as_ ++ [e])
    else splitPendingAux rest (ns ++ [e]) as_

/-- The full split of the pending buffer into name parts and address parts. -/
def splitPending (pending : List (List Char)) : List (List Char) × List (List Char) :=
  splitPendingAux pending [] []

/-- Greedy tail of `re.search(r"新市區(\S+里)", text)`: given the maximal non-space run
following an occurrence of `新市區`, the greedy `\S+` backtracks to the last `里` in
the run, which must leave at least one preceding character. -/
def liChop (run : List Char) : Option (List Char) :=
  if run.reverse.findIdx (· == '里') < run.length ∧
      1 ≤ run.length - 1 - run.reverse.findIdx (· == '里') then
    some (run.take (run.length - 1 - run.reverse.findIdx (· == '里') + 1))
  else none

/-- `re.search(r"新市區(\S+里)", text)`: leftmost position where `新市區` occurs and the
following non-space run contains a usable `里`; on failure at a position the scan
advances one character. -/
def liSearch : List Char → Option (List Char)
  | [] => none
  | c :: rest =>
    if (str "新市區").isPrefixOf (c :: rest) then
      match liChop (((c :: rest).drop 3).takeWhile (fun ch => !ch.isWhitespace)) with
      | some v => some v
      | none => liSearch rest
    else liSearch rest

/-- `_extract_li(name, address)`: try the name first, then the address. -/
def liOf (name address : List Char) : Option (List Char) :=
  match liSearch name with
  | some v => some v
  | none => liSearch address

/-- Record construction of `parse_facilities` (lines 132-154): split the pending
buffer, join and strip both parts, and fill the `Facility` including the derived
`district` (substring test for `新市區`) and `li` fields. -/
def closeRecord (pending : List (List Char)) (cap : Nat) (br : List Char) : Facility :=
  { name := pyStrip (splitPending pending).1.flatten
    address := pyStrip (splitPending pending).2.flatten
    capacity := cap
    branch := br
    district :=
      if containsSub (pyStrip (splitPending pending).1.flatten) (str "新市區") ||
          containsSub (pyStrip (splitPending pending).2.flatten) (str "新市區") then
        some (str "新市區")
      else none
    li := liOf (pyStrip (splitPending pending).1.flatten) (pyStrip (splitPending pending).2.flatten)
    slug := none }

/-- The main loop of `parse_facilities`: a line matching the terminal pattern closes
one record from the pending buffer and resets it; any other line is appended to the
buffer.  At end of input the remaining buffer is dropped. -/
def parseFacilitiesAux : List (List Char) → List (List Char) → List Facility
  | [], _ => []
  | l :: ls, pending =>
    match capBranchMatch l with
    | some (cap, br) => closeRecord pending cap br :: parseFacilitiesAux ls []
    | none => parseFacilitiesAux ls (pending ++ [l])

/-- `parse_facilities(lines)` of `scripts/extract_facilities.py`. -/
def parse_facilities (lines : List (List Char)) : List Facility :=
  parseFacilitiesAux lines []

/-- `re.sub(r"[^a-zA-Z0-9]+", "-", name)` in `slugify`: each maximal run of
non-ASCII-alphanumeric characters is replaced by a single `-`.  The Boolean flag
records whether the previous character belonged to such a run. -/
def subRuns : Bool → List Char → List Char
  | _, [] => []
  | inRun, c :: rest =>
    if c.isAlphanum then c :: subRuns false rest
    else if inRun then subRuns true rest else '-' :: subRuns true rest

/-- The full `re.sub(r"[^a-zA-Z0-9]+", "-", name)`. -/
def subNonAlnum (l : List Char) : List Char := subRuns false l

/-- Python `s.strip("-")`: drop dashes from both ends. -/
def stripDash (l : List Char) : List Char :=
  ((l.dropWhile (· == '-')).reverse.dropWhile (· == '-')).reverse

/-- Python `f"{n:03d}"`: the decimal rendering left-padded with zeros to width 3. -/
def pad3 (n : Nat) : List Char :=
  List.replicate (3 - (natDigits n).length) '0' ++ natDigits n

/-- `slugify(sequence, name)` of `scripts/extract_facilities.py`: the fallback
`facility-NNN` embeds the zero-padded sequence index; a nonempty normalized name is
appended after a dash, lower-cased (the normalized name is ASCII, so `Char.toLower`
matches Python `str.lower`). -/
def slugify (sequence : Nat) (name : List Char) : List Char :=
  if (stripDash (subNonAlnum name)).isEmpty then str "facility-" ++ pad3 sequence
  else str "facility-" ++ pad3 sequence ++ '-' :: (stripDash (subNonAlnum name)).map Char.toLower

end ExtractFacilities

namespace ExtractShelters

/-- `re.search(br"begincmap(.*?)endcmap", raw, re.S)` in `_load_cmap_mapping`: the
leftmost `begincmap` that is followed by an `endcmap`, with the lazy group taking the
earliest such `endcmap`; the returned region is `group(0)`, markers included. -/
def findCmapRegion : List Char → Option (List Char)
  | [] => none
  | c :: rest =>
    if (str "begincmap").isPrefixOf (c :: rest) then
      match findSubIdx ((c :: rest).drop 9) (str "endcmap") with
      | some j => some ((c :: rest).take (9 + j + 7))
      | none => findCmapRegion rest
    else findCmapRegion rest

/-- One candidate match of `r"<([0-9A-F]{4})> <([0-9A-F]{4})>"` at the current
position: thirteen fixed characters with exactly one space between the groups. -/
def pairAt : List Char → Option (Nat × Nat)
  | '<' :: a :: b :: c :: d :: '>' :: ' ' :: '<' :: e :: f :: g :: h :: '>' :: _ =>
    if [a, b, c, d, e, f, g, h].all isHexUp then
      some (hexVal [a, b, c, d], hexVal [e, f, g, h])
    else none
  | _ => none

/-- Fuel-indexed step of `re.finditer` over the cmap region: non-overlapping
left-to-right matches of the pair pattern; after a match the scan resumes 13
characters later, otherwise it advances one character.  Each step consumes at least
one character, so fuel = input length suffices; the fuel only makes the recursion
structural. -/
def scanPairsF : Nat → List Char → List (Nat × Nat)
  | 0, _ => []
  | _ + 1, [] => []
  | fuel + 1, x :: rest =>
    match pairAt (x :: rest) with
    | some p => p :: scanPairsF fuel (rest.drop 12)
    | none => scanPairsF fuel rest

/-- `re.finditer` of the pair pattern over the cmap region. -/
def scanPairs (l : List Char) : List (Nat × Nat) := scanPairsF l.length l

/-- `_load_cmap_mapping(raw_pdf)` of `scripts/extract_shelters.py`: locate the cmap
region (raising `ValueError` when absent), collect the code/unicode pairs, and raise
`ValueError` when the parsed mapping is empty.  Mapping values are the Unicode code
points (Python stores `chr(value)`). -/
def loadCmapMapping (raw : List Char) : Except (List Char) (List (Nat × Nat)) :=
  match findCmapRegion raw with
  | none => Except.error (str "Unable to locate cmap definition in PDF.")
  | some region =>
    if (scanPairs region).isEmpty then Except.error (str "Parsed cmap is empty.")
    else Except.ok (scanPairs region)

/-- `_decompress_streams(raw_pdf)`: each `stream…endstream` segment is stripped of
framing CR/LF and decompressed; a segment on which `zlib.decompress` raises is
skipped (`except zlib.error: continue`) and contributes nothing. -/
def decompressStreams (inflate : List Char → Option (List Char))
    (segs : List (List Char)) : List (List Char) :=
  segs.filterMap (fun s => inflate (stripCRLF s))

/-- The record dictionary produced by `_parse_entry`. -/
structure ShelterRecord where
  district : List Char
  village : List Char
  name : List Char
  address : List Char
  capacity : Nat
  branch : List Char
deriving DecidableEq

/-- `re.search(r"(\d+)(善化分局)?$", entry)`: the match is anchored at the end; when
the entry ends with `善化分局` the digits sit immediately before that suffix,
otherwise they must be the very last characters.  Being leftmost, the digit group is
the maximal digit run at that boundary.  Returns the capacity value and
`match.start()` (the index where the digit run begins). -/
def capSearch (entry : List Char) : Option (Nat × Nat) :=
  if (str "善化分局").isSuffixOf entry then
    if ((entry.take (entry.length - 4)).reverse.takeWhile Char.isDigit).length = 0 then none
    else
      some (charsToNat ((entry.take (entry.length - 4)).drop
              ((entry.length - 4) -
               ((entry.take (entry.length - 4)).reverse.takeWhile Char.isDigit).length)),
            (entry.length - 4) -
              ((entry.take (entry.length - 4)).reverse.takeWhile Char.isDigit).length)
  else
    if (entry.reverse.takeWhile Char.isDigit).length = 0 then none
    else
      some (charsToNat (entry.drop (entry.length - (entry.reverse.takeWhile Char.isDigit).length)),
            entry.length - (entry.reverse.takeWhile Char.isDigit).length)

/-- `re.match(r"([^里]+里)(.*)", remainder)`: the village is everything up to and
including the first `里`, which must not be the first character. -/
def villageSplit (remainder : List Char) : Option (List Char × List Char) :=
  if 1 ≤ remainder.findIdx (· == '里') ∧ remainder.findIdx (· == '里') < remainder.length then
    some (remainder.take (remainder.findIdx (· == '里') + 1),
          remainder.drop (remainder.findIdx (· == '里') + 1))
  else none

/-- `_parse_entry(entry)` of `scripts/extract_shelters.py`: locate the capacity,
check the `新市區` prefix, split off the village, split name/address at the first
`臺南市`, and return the record whose `district` and `branch` fields are the
injected literals. -/
def parseEntry (entry : List Char) : Except (List Char) ShelterRecord :=
  match capSearch entry with
  | none => Except.error (str "Unable to parse capacity for entry")
  | some (cap, start) =>
    if (str "新市區").isPrefixOf (entry.take start) then
      match villageSplit ((entry.take start).drop 3) with
      | none => Except.error (str "Unable to parse village from entry")
      | some (village, details) =>
        match findSubIdx details (str "臺南市") with
        | none =>
          Except.ok ⟨str "新市區", village, details, [], cap, str "善化分局"⟩
        | some i =>
          Except.ok ⟨str "新市區", village, details.take i, details.drop i, cap, str "善化分局"⟩
    else Except.error (str "Entry missing district prefix")

end ExtractShelters

namespace GenerateSites

/-- Per-code decoding of `decode_text_streams` in `generate_sites.py`:
`chr(mapping.get(int(code, 16), int(code, 16)))` — the fallback for an unmapped code
is the code value itself. -/
def gsCode (mapping : List (Nat × Nat)) (code : Nat) : Nat := (lookupCm mapping code).getD code

/-- `decode_text_streams(pdf_bytes, mapping)` over the already-delimited
`stream…endstream` segments: segments that fail to decompress are skipped, segments
with no hex codes are skipped, and the remaining codes are decoded with `gsCode`
(this variant does not strip CR/LF framing before decompressing). -/
def decode_text_streams (inflate : List Char → Option (List Char))
    (segs : List (List Char)) (mapping : List (Nat × Nat)) : List Nat :=
  segs.foldr
    (fun s acc =>
      match inflate s with
      | none => acc
      | some d =>
        if ((scanHexRuns d).map hexVal).isEmpty then acc
        else ((scanHexRuns d).map hexVal).map (gsCode mapping) ++ acc)
    []

/-- Base slug of `parse_facilities` in `generate_sites.py`:
`"".join(ch for ch in name if ch.isalnum()) or "facility"`. -/
def baseSlug (name : List Char) : List Char :=
  if (name.filter pyIsAlnum).isEmpty then str "facility" else name.filter pyIsAlnum

/-- Lookup in the `slug_counts` dict with default 0 (`setdefault(base, 0)`). -/
def lookupK : List (List Char × Nat) → List Char → Nat
  | [], _ => 0
  | (b, k) :: rest, q => if b = q then k else lookupK rest q

/-- Suffix formatting of the slug loop: the first occurrence keeps the base slug,
later occurrences append `-<count>`. -/
def mkSlug (b : List Char) (k : Nat) : List Char :=
  if k = 1 then b else b ++ '-' :: natDigits k

/-- The (base, count) pairs produced by the slug loop, in record order. -/
def slugKsAux : List (List Char) → List (List Char × Nat) → List (List Char × Nat)
  | [], _ => []
  | n :: ns, counts =>
    (baseSlug n, lookupK counts (baseSlug n) + 1) ::
      slugKsAux ns ((baseSlug n, lookupK counts (baseSlug n) + 1) :: counts)

/-- The (base, count) pairs assigned for the given record names. -/
def slugKs (names : List (List Char)) : List (List Char × Nat) := slugKsAux names []

/-- The slug-assignment loop of `parse_facilities` (generate_sites.py lines 86-93)
applied to the record names in order. -/
def assignSlugsAux : List (List Char) → List (List Char × Nat) → List (List Char)
  | [], _ => []
  | n :: ns, counts =>
    mkSlug (baseSlug n) (lookupK counts (baseSlug n) + 1) ::
      assignSlugsAux ns ((baseSlug n, lookupK counts (baseSlug n) + 1) :: counts)

/-- The slugs assigned to the records of a parsed collection, in record order. -/
def assignSlugs (names : List (List Char)) : List (List Char) := assignSlugsAux names []

end GenerateSites

namespace GenerateSite

/-- `extract_streams(pdf_bytes)` of `scripts/generate_site.py` over the delimited
segments: each segment is stripped of CR/LF framing and decompressed; when
`zlib.decompress` raises, the RAW segment bytes are appended instead
(`except Exception: streams.append(raw)`). -/
def extractStreams (inflate : List Char → Option (List Char))
    (segs : List (List Char)) : List (List Char) :=
  segs.map (fun s => (inflate (stripCRLF s)).getD (stripCRLF s))

/-- Per-code decoding of `decode_sections`: `chr(cmap[code])` guarded by
`if code in cmap` — an unmapped code is dropped, producing nothing. -/
def secCode (cmap : List (Nat × Nat)) (code : Nat) : Option Nat := lookupCm cmap code

/-- The code-level decoding of `decode_sections` over the glyph codes of one
text-showing operation: mapped codes contribute their value, unmapped codes are
omitted. -/
def decode_sections_codes (codes : List Nat) (cmap : List (Nat × Nat)) : List Nat :=
  codes.filterMap (secCode cmap)

/-- The fixed header/footer keys of `remove_headers_and_footers` (the `更新` banner is
tested separately but likewise by containment). -/
def rhfKeys : List (List Char) :=
  [str "區別里別名稱地址", str "容量(可容納人數)", str "轄管分局",
   str "防空疏散避難設施一覽表", str "第1頁", str "第2頁"]

/-- The filtering component of `remove_headers_and_footers`: an item is dropped when
it contains any key or contains `更新`. -/
def remove_headers_and_footers (sections : List (List Char)) : List (List Char) :=
  sections.filter
    (fun i => !(rhfKeys.any (fun k => containsSub i k) || containsSub i (str "更新")))

/-- The guard of `extract_facilities` in `scripts/generate_site.py`:
`if not cmap: raise RuntimeError(...)` — an empty built cmap aborts the extraction. -/
def cmapGuard (cmap : List (Nat × Nat)) : Except (List Char) (List (Nat × Nat)) :=
  if cmap.isEmpty then Except.error (str "Unable to locate ToUnicode cmap in the PDF.")
  else Except.ok cmap

end GenerateSite

namespace BuildSites

/-- `_extract_text_runs(pdf_bytes, mapping)` of `scripts/build_sites.py` over the
delimited segments: a segment whose decompression raises is skipped
(`except Exception: continue`), a decompressed segment without `BT` is skipped, and
each glyph of the remaining segments decodes through the mapping with `"?"`
(code 63) as fallback. -/
def extractTextRuns (inflate : List Char → Option (List Char))
    (segs : List (List Char)) (mapping : List (Nat × Nat)) : List Nat :=
  segs.foldr
    (fun s acc =>
      match inflate (stripCRLF s) with
      | none => acc
      | some d =>
        (if (findSubIdx d (str "BT")).isSome then
          (scanHexRuns d).map (fun g => (lookupCm mapping (hexVal g)).getD 63)
        else []) ++ acc)
    []

/-- Fuel-indexed scan of `re.findall(r"beginbfchar(.*?)endbfchar", pdf_text, re.S)`
in `_build_unicode_map`: each non-overlapping match contributes the lazy group
between the markers, and scanning resumes after `endbfchar`; a position without a
match advances one character.  Fuel = input length suffices; the fuel only makes the
recursion structural. -/
def bfcharBlocksF : Nat → List Char → List (List Char)
  | 0, _ => []
  | _ + 1, [] => []
  | fuel + 1, c :: rest =>
    if (str "beginbfchar").isPrefixOf (c :: rest) then
      match findSubIdx ((c :: rest).drop 11) (str "endbfchar") with
      | some j => ((c :: rest).drop 11).take j :: bfcharBlocksF fuel ((c :: rest).drop (11 + j + 9))
      | none => bfcharBlocksF fuel rest
    else bfcharBlocksF fuel rest

/-- The `beginbfchar` section bodies found by `_build_unicode_map`. -/
def bfcharBlocks (l : List Char) : List (List Char) := bfcharBlocksF l.length l

/-- One candidate match of `r"<([0-9A-F]+)>\s*<([0-9A-F]+)>"` at the current
position: two bracketed nonempty upper-case hex groups with optional whitespace
between.  Returns the decoded pair and the number of characters consumed. -/
def varPairAt (l : List Char) : Option ((Nat × Nat) × Nat) :=
  match l with
  | '<' :: r1 =>
    if (r1.takeWhile isHexUp ≠ [] ∧
        (r1.drop (r1.takeWhile isHexUp).length).head? = some '>') then
      match r1.drop ((r1.takeWhile isHexUp).length + 1 +
          ((r1.drop ((r1.takeWhile isHexUp).length + 1)).takeWhile Char.isWhitespace).length) with
      | '<' :: r3 =>
        if (r3.takeWhile isHexUp ≠ [] ∧
            (r3.drop (r3.takeWhile isHexUp).length).head? = some '>') then
          some ((hexVal (r1.takeWhile isHexUp), hexVal (r3.takeWhile isHexUp)),
            (r1.takeWhile isHexUp).length + 1 +
              ((r1.drop ((r1.takeWhile isHexUp).length + 1)).takeWhile Char.isWhitespace).length +
              1 + (r3.takeWhile isHexUp).length + 2)
        else none
      | _ => none
    else none
  | _ => none

/-- Fuel-indexed `re.finditer` of the variable-width pair pattern over one bfchar
block; non-overlapping, resuming after each match. -/
def varPairsF : Nat → List Char → List (Nat × Nat)
  | 0, _ => []
  | _ + 1, [] => []
  | fuel + 1, c :: rest =>
    match varPairAt (c :: rest) with
    | some (p, consumed) => p :: varPairsF fuel ((c :: rest).drop consumed)
    | none => varPairsF fuel rest

/-- All pairs of one bfchar block. -/
def varPairs (l : List Char) : List (Nat × Nat) := varPairsF l.length l

/-- `_build_unicode_map(pdf_text)` of `scripts/build_sites.py`: only `beginbfchar`
sections are scanned and only single `<src> <dst>` pairs are collected — the
function contains no `bfrange` handling at all.  Mapping values are the Unicode
code points (Python stores `chr(value)`). -/
def buildUnicodeMap (pdf_text : List Char) : List (Nat × Nat) :=
  (bfcharBlocks pdf_text).foldl
    (fun m blk => (varPairs blk).foldl (fun acc p => (p.1, p.2) :: acc) m) []

end BuildSites

/-! Helper lemmas connecting the executable scanners to mathematical substring relations. -/

/-- Bridging lemma for the executable prefix test used throughout the embeddings. -/
theorem prefixOf_eq {l₁ l₂ : List Char} : l₁.isPrefixOf l₂ = true ↔ l₁ <+: l₂ :=
  List.isPrefixOf_iff_prefix

/-- The substring scanner succeeds exactly on infixes. -/
theorem findSub_isSome (pat : List Char) :
    ∀ l, (findSubIdx l pat).isSome = true ↔ pat <:+: l := by
  intro l
  induction l with
  | nil =>
    by_cases h : pat = [] <;> simp [findSubIdx, h, List.infix_nil]
  | cons c rest ih =>
    by_cases hp : pat.isPrefixOf (c :: rest)
    · simp only [findSubIdx, hp, if_pos, Option.isSome_some, true_iff]
      exact (prefixOf_eq.mp hp).isInfix
    · have hmap : ((findSubIdx rest pat).map (· + 1)).isSome = (findSubIdx rest pat).isSome := by
        cases findSubIdx rest pat <;> rfl
      simp only [findSubIdx, hp, if_neg, Bool.false_eq_true, ite_false, hmap, ih]
      rw [List.infix_cons_iff]
      constructor
      · exact fun h => Or.inr h
      · rintro (h | h)
        · exact absurd (prefixOf_eq.mpr h) (by simp [hp])
        · exact h

/-- Python containment `pat in s` holds exactly when `pat` is an infix. -/
theorem containsSub_iff {l pat : List Char} : containsSub l pat = true ↔ pat <:+: l :=
  findSub_isSome pat l

/-- The substring scanner returns an index at which the pattern starts. -/
theorem findSub_drop :
    ∀ (l pat : List Char) (i : Nat), findSubIdx l pat = some i → pat <+: l.drop i := by
  intro l
  induction l with
  | nil =>
    intro pat i h
    unfold findSubIdx at h
    by_cases hp : pat.isEmpty = true
    · rw [if_pos hp] at h
      injection h with h2
      subst h2
      simp [List.isEmpty_iff.mp hp]
    · rw [if_neg hp] at h
      exact Option.noConfusion h
  | cons c rest ih =>
    intro pat i h
    unfold findSubIdx at h
    by_cases hp : pat.isPrefixOf (c :: rest) = true
    · rw [if_pos hp] at h
      injection h with h2
      subst h2
      exact prefixOf_eq.mp hp
    · rw [if_neg hp] at h
      cases hr : findSubIdx rest pat with
      | none => rw [hr] at h; exact Option.noConfusion h
      | some j =>
        rw [hr] at h
        injection h with h2
        subst h2
        exact ih pat j hr

/-- Claim C2 (counterexample): for a code absent from the CMap, the decoder of
`generate_sites.py` returns the code value itself (here `0x41`, not `U+FFFD` and not
`?`), and the decoder of `scripts/generate_site.py` drops the code entirely, emitting
no placeholder at all — contradicting the claim that every decoder falls back to the
defined placeholder. -/
theorem claim2_counterexample :
    lookupCm [] 65 = none ∧
    GenerateSites.decode_text_streams (fun s => some s) [str "<0041>"] [] = [65] ∧
    GenerateSite.decode_sections_codes [65] [] = [] ∧
    ¬(65 = 0xFFFD ∨ 65 = 63) := by decide

/-- Claim C2 (amended): decoding is total, and for codes present in the CMap all
three decoders return exactly the mapped value; for absent codes the fallbacks
differ per decoder: `decode_hex_string` yields `U+FFFD`, `decode_text_streams`
yields the code value itself, and `decode_sections` omits the code. -/
theorem claim2_amended (m : List (Nat × Nat)) (c v : Nat) :
    (lookupCm m c = some v →
      ExtractFacilities.dhsCode m c = v ∧ GenerateSites.gsCode m c = v ∧
        GenerateSite.secCode m c = some v) ∧
    (lookupCm m c = none →
      ExtractFacilities.dhsCode m c = 0xFFFD ∧ GenerateSites.gsCode m c = c ∧
        GenerateSite.secCode m c = none) := by
  constructor <;> intro h <;>
    simp [ExtractFacilities.dhsCode, GenerateSites.gsCode, GenerateSite.secCode, h]

/-- Claim C2 witness: the amended statement evaluated at a mapped and an unmapped code. -/
theorem claim2_witness :
    (ExtractFacilities.dhsCode [(1, 100)] 1 = 100 ∧ GenerateSites.gsCode [(1, 100)] 1 = 100 ∧
      GenerateSite.secCode [(1, 100)] 1 = some 100) ∧
    (ExtractFacilities.dhsCode [(1, 100)] 2 = 0xFFFD ∧ GenerateSites.gsCode [(1, 100)] 2 = 2 ∧
      GenerateSite.secCode [(1, 100)] 2 = none) :=
  ⟨(claim2_amended [(1, 100)] 1 100).1 rfl, (claim2_amended [(1, 100)] 2 0).2 rfl⟩

/-- Claim C3 (counterexample): `should_skip` drops the line `天天更新中`, which is not
one of the configured boilerplate strings — the filter tests substring containment,
not exact equality, so a non-boilerplate data run containing `更新` is dropped. -/
theorem claim3_counterexample :
    ExtractFacilities.should_skip (str "天天更新中") = true ∧
    str "天天更新中" ∉ ExtractFacilities.boilerplate := by decide

/-- Claim C3 (amended): both token filters drop a decoded run if and only if the run
CONTAINS one of their fixed boilerplate strings as a substring (not: exactly equals
one); consequently no kept token contains any boilerplate string, but data runs that
merely contain one are also dropped.  The third conjunct settles
`remove_headers_and_footers` of `scripts/generate_site.py`, whose boilerplate set is
its six keys plus the `更新` banner test. -/
theorem claim3_amended :
    (∀ l, ExtractFacilities.should_skip l = true ↔
      ∃ p ∈ ExtractFacilities.boilerplate, p <:+: l) ∧
    (∀ lines l, l ∈ ExtractFacilities.extract_lines_filter lines →
      ∀ p ∈ ExtractFacilities.boilerplate, ¬ p <:+: l) ∧
    (∀ sections i, i ∈ sections →
      (i ∈ GenerateSite.remove_headers_and_footers sections ↔
        ¬ ∃ k ∈ GenerateSite.rhfKeys ++ [str "更新"], k <:+: i)) := by
  have key : ∀ l, ExtractFacilities.should_skip l = true ↔
      ∃ p ∈ ExtractFacilities.boilerplate, p <:+: l := by
    intro l
    unfold ExtractFacilities.should_skip
    rw [List.any_eq_true]
    constructor
    · rintro ⟨p, hp, hc⟩; exact ⟨p, hp, containsSub_iff.mp hc⟩
    · rintro ⟨p, hp, hc⟩; exact ⟨p, hp, containsSub_iff.mpr hc⟩
  refine ⟨key, ?_, ?_⟩
  · intro lines l hl p hp hinf
    have hmem := List.mem_filter.mp hl
    have hskip : ExtractFacilities.should_skip l = true := (key l).mpr ⟨p, hp, hinf⟩
    simp [hskip] at hmem
  · intro sections i hi
    unfold GenerateSite.remove_headers_and_footers
    rw [List.mem_filter]
    constructor
    · rintro ⟨-, hpred⟩ ⟨k, hk, hinf⟩
      rw [Bool.not_eq_true'] at hpred
      obtain ⟨hA, hB⟩ := Bool.or_eq_false_iff.mp hpred
      rcases List.mem_append.mp hk with hk1 | hk2
      · have hany : GenerateSite.rhfKeys.any (fun k => containsSub i k) = true :=
          List.any_eq_true.mpr ⟨k, hk1, containsSub_iff.mpr hinf⟩
        rw [hany] at hA
        exact Bool.noConfusion hA
      · have hk' : k = str "更新" := List.mem_singleton.mp hk2
        subst hk'
        have hcon : containsSub i (str "更新") = true := containsSub_iff.mpr hinf
        rw [hcon] at hB
        exact Bool.noConfusion hB
    · intro hno
      refine ⟨hi, ?_⟩
      rw [Bool.not_eq_true']
      refine Bool.or_eq_false_iff.mpr ⟨?_, ?_⟩
      · rw [Bool.eq_false_iff]
        intro hA
        obtain ⟨k, hk, hc⟩ := List.any_eq_true.mp hA
        exact hno ⟨k, List.mem_append_left _ hk, containsSub_iff.mp hc⟩
      · rw [Bool.eq_false_iff]
        intro hB
        exact hno ⟨str "更新", List.mem_append_right _ (List.mem_singleton.mpr rfl),
          containsSub_iff.mp hB⟩

/-- Claim C3 witness: the amended statement applied to a concrete kept line in both
filters. -/
theorem claim3_witness :
    (¬ (str "更新") <:+: (str "平凡")) ∧
    (str "平凡") ∈ GenerateSite.remove_headers_and_footers [str "平凡"] :=
  ⟨claim3_amended.2.1 [str "平凡"] (str "平凡") (by decide) (str "更新") (by decide),
   (claim3_amended.2.2 [str "平凡"] (str "平凡") (by decide)).mpr (by decide)⟩

/-- Claim C4 (counterexample): in `extract_streams` of `scripts/generate_site.py` a
segment on which decompression fails is NOT skipped — the raw segment bytes are
appended to the output, so the failing segment does contribute to the decoded text. -/
theorem claim4_counterexample :
    GenerateSite.extractStreams (fun _ => none) [str "ab"] = [str "ab"] ∧
    (str "ab" : List Char) ≠ [] := by decide

/-- Claim C4 (amended): a segment that is not valid deflate is skipped entirely by
`_decompress_streams` (extract_shelters.py) and `_extract_text_runs`
(build_sites.py), extraction continuing with the remaining segments; but
`extract_streams` (generate_site.py) instead keeps the raw segment bytes. -/
theorem claim4_amended (inflate : List Char → Option (List Char))
    (segs : List (List Char)) (s : List Char) (m : List (Nat × Nat))
    (h : inflate (stripCRLF s) = none) :
    ExtractShelters.decompressStreams inflate (s :: segs) =
      ExtractShelters.decompressStreams inflate segs ∧
    GenerateSite.extractStreams inflate (s :: segs) =
      stripCRLF s :: GenerateSite.extractStreams inflate segs ∧
    BuildSites.extractTextRuns inflate (s :: segs) m =
      BuildSites.extractTextRuns inflate segs m := by
  refine ⟨?_, ?_, ?_⟩
  · simp [ExtractShelters.decompressStreams, List.filterMap_cons, h]
  · simp [GenerateSite.extractStreams, h]
  · simp [BuildSites.extractTextRuns, h]

/-- Claim C4 witness: the amended statement at a concrete failing segment. -/
theorem claim4_witness :
    ExtractShelters.decompressStreams (fun _ => none) [str "x"] =
      ExtractShelters.decompressStreams (fun _ => none) [] ∧
    GenerateSite.extractStreams (fun _ => none) [str "x"] =
      stripCRLF (str "x") :: GenerateSite.extractStreams (fun _ => none) [] ∧
    BuildSites.extractTextRuns (fun _ => none) [str "x"] [] =
      BuildSites.extractTextRuns (fun _ => none) [] [] :=
  claim4_amended (fun _ => none) [] (str "x") [] rfl

/-- Claim C5 (counterexample): `load_cmap` of `scripts/extract_facilities.py` has no
emptiness check and no error path — when parsing yields zero entries it returns the
empty mapping and the extraction proceeds, decoding every glyph to `U+FFFD`, instead
of aborting with `EmptyCMapError`. -/
theorem claim5_counterexample :
    ExtractFacilities.loadCmapBuild [] [] = [] ∧
    ExtractFacilities.decode_hex_string (str "0041") (ExtractFacilities.loadCmapBuild [] []) =
      [0xFFFD] := by decide

/-- Claim C5 (amended): `_load_cmap_mapping` (extract_shelters.py) raises when no
character-map region is found and when zero pairs parse, and `extract_facilities`
(generate_site.py) raises when the built cmap is empty; `load_cmap`
(extract_facilities.py), however, returns an empty mapping without error. -/
theorem claim5_amended (raw : List Char) :
    (ExtractShelters.findCmapRegion raw = none →
      ExtractShelters.loadCmapMapping raw =
        Except.error (str "Unable to locate cmap definition in PDF.")) ∧
    (∀ region, ExtractShelters.findCmapRegion raw = some region →
      ExtractShelters.scanPairs region = [] →
      ExtractShelters.loadCmapMapping raw = Except.error (str "Parsed cmap is empty.")) ∧
    GenerateSite.cmapGuard [] =
      Except.error (str "Unable to locate ToUnicode cmap in the PDF.") := by
  refine ⟨?_, ?_, rfl⟩
  · intro h; unfold ExtractShelters.loadCmapMapping; rw [h]
  · intro region h hz; unfold ExtractShelters.loadCmapMapping; rw [h]; simp [hz]

/-- Claim C5 witness: the amended statement at a container with no cmap region. -/
theorem claim5_witness :
    ExtractShelters.loadCmapMapping (str "no") =
      Except.error (str "Unable to locate cmap definition in PDF.") :=
  (claim5_amended (str "no")).1 (by decide)

/-- Claim C7: a token matching the terminal pattern, arriving while address tokens
have been collected, closes exactly one record whose capacity and precinct come from
the match and whose name/address come from the accumulated buffer; the buffer is
reset and assembly continues in the initial state on the remaining tokens. -/
theorem claim7_theorem (t : List Char) (rest pending : List (List Char)) (cap : Nat)
    (br : List Char) (hm : ExtractFacilities.capBranchMatch t = some (cap, br))
    (_haddr : (ExtractFacilities.splitPending pending).2 ≠ []) :
    ExtractFacilities.parseFacilitiesAux (t :: rest) pending =
      ExtractFacilities.closeRecord pending cap br ::
        ExtractFacilities.parseFacilitiesAux rest [] ∧
    (ExtractFacilities.closeRecord pending cap br).capacity = cap ∧
    (ExtractFacilities.closeRecord pending cap br).branch = br ∧
    (ExtractFacilities.closeRecord pending cap br).name =
      pyStrip (ExtractFacilities.splitPending pending).1.flatten ∧
    (ExtractFacilities.closeRecord pending cap br).address =
      pyStrip (ExtractFacilities.splitPending pending).2.flatten := by
  refine ⟨?_, rfl, rfl, rfl, rfl⟩
  simp [ExtractFacilities.parseFacilitiesAux, hm]

/-- Claim C7 witness: the theorem at a concrete terminal token and pending buffer. -/
theorem claim7_witness :
    ExtractFacilities.parseFacilitiesAux [str "120善化分局"]
        [str "學校", str "臺南市中央路1號"] =
      ExtractFacilities.closeRecord [str "學校", str "臺南市中央路1號"] 120 (str "善化分局") ::
        ExtractFacilities.parseFacilitiesAux [] [] ∧
    (ExtractFacilities.closeRecord [str "學校", str "臺南市中央路1號"] 120
        (str "善化分局")).capacity = 120 ∧
    (ExtractFacilities.closeRecord [str "學校", str "臺南市中央路1號"] 120
        (str "善化分局")).branch = str "善化分局" ∧
    (ExtractFacilities.closeRecord [str "學校", str "臺南市中央路1號"] 120
        (str "善化分局")).name =
      pyStrip (ExtractFacilities.splitPending
        [str "學校", str "臺南市中央路1號"]).1.flatten ∧
    (ExtractFacilities.closeRecord [str "學校", str "臺南市中央路1號"] 120
        (str "善化分局")).address =
      pyStrip (ExtractFacilities.splitPending
        [str "學校", str "臺南市中央路1號"]).2.flatten :=
  claim7_theorem (str "120善化分局") [] [str "學校", str "臺南市中央路1號"] 120
    (str "善化分局") (by decide) (by decide)

/-- A run of tokens none of which matches the terminal pattern closes no record:
the pending buffer is accumulated and finally discarded. -/
theorem parseFacilitiesAux_no_match :
    ∀ (ms pending : List (List Char)),
      (∀ t ∈ ms, ExtractFacilities.capBranchMatch t = none) →
      ExtractFacilities.parseFacilitiesAux ms pending = [] := by
  intro ms
  induction ms with
  | nil => intro pending _; rfl
  | cons t ts ih =>
    intro pending h
    have ht := h t (List.mem_cons_self t ts)
    simp only [ExtractFacilities.parseFacilitiesAux, ht]
    exact ih _ (fun x hx => h x (List.mem_cons_of_mem _ hx))

/-- Appending terminal-free tokens after the input changes nothing. -/
theorem parseFacilitiesAux_append :
    ∀ (ls suffix pending : List (List Char)),
      (∀ t ∈ suffix, ExtractFacilities.capBranchMatch t = none) →
      ExtractFacilities.parseFacilitiesAux (ls ++ suffix) pending =
        ExtractFacilities.parseFacilitiesAux ls pending := by
  intro ls
  induction ls with
  | nil =>
    intro suffix pending h
    simpa using parseFacilitiesAux_no_match suffix pending h
  | cons l ls ih =>
    intro suffix pending h
    cases hm : ExtractFacilities.capBranchMatch l with
    | none =>
      simp only [List.cons_append, ExtractFacilities.parseFacilitiesAux, hm]
      exact ih suffix (pending ++ [l]) h
    | some p =>
      obtain ⟨cap, br⟩ := p
      simp only [List.cons_append, ExtractFacilities.parseFacilitiesAux, hm, List.append_eq]
      rw [ih suffix [] h]

/-- Claim C10: tokens after the last terminal-pattern token are silently discarded —
the pending accumulator is never flushed — and a token sequence with no terminal
token yields the empty record list (and no error: the function is total). -/
theorem claim10_theorem (ls suffix : List (List Char))
    (h : ∀ t ∈ suffix, ExtractFacilities.capBranchMatch t = none) :
    ExtractFacilities.parse_facilities (ls ++ suffix) =
      ExtractFacilities.parse_facilities ls ∧
    ExtractFacilities.parse_facilities suffix = [] :=
  ⟨parseFacilitiesAux_append ls suffix [] h, parseFacilitiesAux_no_match suffix [] h⟩

/-- Claim C10 witness: a concrete record list with a trailing incomplete entry. -/
theorem claim10_witness :
    ExtractFacilities.parse_facilities ([str "甲", str "9善化分局"] ++ [str "尾巴"]) =
      ExtractFacilities.parse_facilities [str "甲", str "9善化分局"] ∧
    ExtractFacilities.parse_facilities [str "尾巴"] = [] :=
  claim10_theorem [str "甲", str "9善化分局"] [str "尾巴"] (by decide)

/-- Claim C9: every record `_parse_entry` returns carries the injected literal
constants `新市區` as district and `善化分局` as branch, independent of the decoded
token content. -/
theorem claim9_theorem (entry : List Char) (r : ExtractShelters.ShelterRecord)
    (h : ExtractShelters.parseEntry entry = Except.ok r) :
    r.district = str "新市區" ∧ r.branch = str "善化分局" := by
  unfold ExtractShelters.parseEntry at h
  repeat' split at h
  all_goals first
    | exact Except.noConfusion h
    | (injection h with h2; subst h2; exact ⟨rfl, rfl⟩)

/-- Claim C9 witness: the theorem at a concrete well-formed entry. -/
theorem claim9_witness :
    (⟨str "新市區", str "大社里", str "大社國小", str "臺南市新市區中正路1號", 100,
        str "善化分局"⟩ : ExtractShelters.ShelterRecord).district = str "新市區" ∧
    (⟨str "新市區", str "大社里", str "大社國小", str "臺南市新市區中正路1號", 100,
        str "善化分局"⟩ : ExtractShelters.ShelterRecord).branch = str "善化分局" :=
  claim9_theorem (str "新市區大社里大社國小臺南市新市區中正路1號100善化分局")
    ⟨str "新市區", str "大社里", str "大社國小", str "臺南市新市區中正路1號", 100,
      str "善化分局"⟩ (by rfl)

/-- Lookup after the triple-range assignment loop of `load_cmap`. -/
theorem lookup_triple_fold (s b : Nat) :
    ∀ (n : Nat) (m : List (Nat × Nat)) (code : Nat),
      lookupCm ((List.range n).foldl (fun acc o => (s + o, b + o) :: acc) m) code =
        if s ≤ code ∧ code < s + n then some (b + (code - s)) else lookupCm m code := by
  intro n
  induction n with
  | zero =>
    intro m code
    rw [if_neg (by omega)]
    rfl
  | succ k ih =>
    intro m code
    rw [List.range_succ, List.foldl_append]
    simp only [List.foldl_cons, List.foldl_nil]
    by_cases hc : s + k = code
    · simp only [lookupCm, if_pos hc]
      rw [if_pos (by omega)]
      congr 1
      omega
    · simp only [lookupCm, if_neg hc]
      rw [ih]
      by_cases h1 : s ≤ code ∧ code < s + k
      · rw [if_pos h1, if_pos (by omega)]
      · rw [if_neg h1, if_neg (by omega)]

/-- Lookup after the array-range assignment loop of `load_cmap`. -/
theorem lookup_arr_fold (s : Nat) (ds : List Nat) :
    ∀ (n : Nat) (m : List (Nat × Nat)) (code : Nat),
      lookupCm ((List.range n).foldl
          (fun acc o => match ds.get? o with | some v => (s + o, v) :: acc | none => acc)
          m) code =
        if s ≤ code ∧ code < s + n ∧ (ds.get? (code - s)).isSome then ds.get? (code - s)
        else lookupCm m code := by
  intro n
  induction n with
  | zero =>
    intro m code
    rw [if_neg (by omega)]
    rfl
  | succ k ih =>
    intro m code
    rw [List.range_succ, List.foldl_append]
    simp only [List.foldl_cons, List.foldl_nil]
    cases hk : ds.get? k with
    | none =>
      rw [ih]
      by_cases h1 : s ≤ code ∧ code < s + k ∧ (ds.get? (code - s)).isSome
      · obtain ⟨h1a, h1b, h1c⟩ := h1
        rw [if_pos ⟨h1a, h1b, h1c⟩, if_pos ⟨h1a, by omega, h1c⟩]
      · rw [if_neg h1]
        by_cases h2 : s ≤ code ∧ code < s + (k + 1) ∧ (ds.get? (code - s)).isSome
        · exfalso
          obtain ⟨h2a, h2b, h2c⟩ := h2
          by_cases hc : s + k = code
          · have hcs : code - s = k := by omega
            rw [hcs, hk] at h2c
            simp at h2c
          · exact h1 ⟨h2a, by omega, h2c⟩
        · rw [if_neg h2]
    | some v =>
      by_cases hc : s + k = code
      · simp only [lookupCm, if_pos hc]
        have hcs : code - s = k := by omega
        rw [if_pos (by rw [hcs, hk]; exact ⟨by omega, by omega, rfl⟩), hcs, hk]
      · simp only [lookupCm, if_neg hc]
        rw [ih]
        by_cases h1 : s ≤ code ∧ code < s + k ∧ (ds.get? (code - s)).isSome
        · obtain ⟨h1a, h1b, h1c⟩ := h1
          rw [if_pos ⟨h1a, h1b, h1c⟩, if_pos ⟨h1a, by omega, h1c⟩]
        · by_cases h2 : s ≤ code ∧ code < s + (k + 1) ∧ (ds.get? (code - s)).isSome
          · exfalso
            obtain ⟨h2a, h2b, h2c⟩ := h2
            exact h1 ⟨h2a, by omega, h2c⟩
          · rw [if_neg h1, if_neg h2]

/-- Text without a `beginbfchar` marker yields no bfchar blocks. -/
theorem bfcharBlocksF_empty :
    ∀ (fuel : Nat) (l : List Char), ¬ (str "beginbfchar") <:+: l →
      BuildSites.bfcharBlocksF fuel l = [] := by
  intro fuel
  induction fuel with
  | zero => intro l _; rfl
  | succ g ih =>
    intro l hno
    cases l with
    | nil => rfl
    | cons c rest =>
      by_cases hp : (str "beginbfchar").isPrefixOf (c :: rest) = true
      · exact absurd (prefixOf_eq.mp hp).isInfix hno
      · unfold BuildSites.bfcharBlocksF
        rw [if_neg hp]
        exact ih rest (fun hinf => hno (List.infix_cons hinf))

/-- Claim C8 (counterexample): `_build_unicode_map` of `scripts/build_sites.py`
supports NEITHER range-entry form — it scans only `beginbfchar` sections, so a
character map consisting of one `bfrange` triple yields an empty mapping and the
in-range code 2 stays unmapped, while `load_cmap` expands the same triple to
`0x42`. -/
theorem claim8_counterexample :
    BuildSites.buildUnicodeMap (str "beginbfrange <0001> <0003> <0041> endbfrange") = [] ∧
    lookupCm (BuildSites.buildUnicodeMap
      (str "beginbfrange <0001> <0003> <0041> endbfrange")) 2 = none ∧
    lookupCm (ExtractFacilities.applyTriple [] (1, 3, 0x41)) 2 = some 0x42 := by
  decide

/-- Claim C8 (amended): `load_cmap` of `scripts/extract_facilities.py` supports both
range-entry forms — a `(start, end, base)` triple maps every code in the interval to
`base + (code − start)`, and an explicit destination array maps each in-range code
to the array entry at its offset; `_build_unicode_map` of `scripts/build_sites.py`
supports neither: it collects only `bfchar` pairs, and any character map containing
no `beginbfchar` section (however many range entries it has) produces the empty
mapping there. -/
theorem claim8_theorem :
    (∀ (m : List (Nat × Nat)) (s e b code : Nat), s ≤ code → code ≤ e →
      lookupCm (ExtractFacilities.applyTriple m (s, e, b)) code = some (b + (code - s))) ∧
    (∀ (m : List (Nat × Nat)) (s e : Nat) (ds : List Nat) (code v : Nat),
      s ≤ code → code ≤ e → ds.get? (code - s) = some v →
      lookupCm (ExtractFacilities.applyArr m (s, e, ds)) code = some v) ∧
    (∀ text : List Char, ¬ (str "beginbfchar") <:+: text →
      BuildSites.buildUnicodeMap text = []) := by
  refine ⟨?_, ?_, ?_⟩
  · intro m s e b code h1 h2
    show lookupCm ((List.range (e + 1 - s)).foldl (fun acc o => (s + o, b + o) :: acc) m)
        code = some (b + (code - s))
    rw [lookup_triple_fold, if_pos (by omega)]
  · intro m s e ds code v h1 h2 h3
    show lookupCm ((List.range (e + 1 - s)).foldl
        (fun acc o => match ds.get? o with | some w => (s + o, w) :: acc | none => acc) m)
        code = some v
    rw [lookup_arr_fold, if_pos ⟨h1, by omega, by rw [h3]; rfl⟩, h3]
  · intro text hno
    unfold BuildSites.buildUnicodeMap
    rw [show BuildSites.bfcharBlocks text = BuildSites.bfcharBlocksF text.length text from rfl]
    rw [bfcharBlocksF_empty text.length text hno]
    rfl

/-- Claim C8 witness: both range forms evaluated at concrete entries. -/
theorem claim8_witness :
    lookupCm (ExtractFacilities.applyTriple [] (3, 6, 100)) 5 = some 102 ∧
    lookupCm (ExtractFacilities.applyArr [] (3, 5, [65, 66])) 4 = some 66 ∧
    BuildSites.buildUnicodeMap (str "<0001> <0003> <0041>") = [] :=
  ⟨claim8_theorem.1 [] 3 6 100 5 (by decide) (by decide),
   claim8_theorem.2.1 [] 3 5 [65, 66] 4 66 (by decide) (by decide) (by rfl),
   claim8_theorem.2.2 (str "<0001> <0003> <0041>") (by decide)⟩

/-- Dropping a satisfying run cannot pass a non-satisfying element. -/
theorem dropWhile_append_flat {p : Char → Bool} (xs zs : List Char) (a : Char)
    (ha : p a = false) :
    (xs ++ a :: zs).dropWhile p = xs.dropWhile p ++ a :: zs := by
  induction xs with
  | nil => simp [List.dropWhile_cons, ha]
  | cons x xt ih => by_cases hx : p x <;> simp [List.dropWhile_cons, hx, ih]

/-- Stripping whitespace keeps the non-whitespace address marker prefix. -/
theorem strip_keeps_marker {l : List Char} (h : str "臺南市" <+: l) :
    str "臺南市" <+: pyStrip l := by
  obtain ⟨t, ht⟩ := h
  unfold pyStrip
  rw [← ht]
  rw [show str "臺南市" ++ t = '臺' :: '南' :: '市' :: t from rfl]
  rw [List.dropWhile_cons]
  simp only [show Char.isWhitespace '臺' = false from by decide, Bool.false_eq_true, ite_false]
  rw [show ('臺' :: '南' :: '市' :: t).reverse = t.reverse ++ '市' :: '南' :: '臺' :: [] by simp]
  rw [dropWhile_append_flat _ _ _ (by decide : Char.isWhitespace '市' = false)]
  rw [List.reverse_append]
  exact ⟨_, rfl⟩

/-- Invariant of the buffer split: the address accumulator is empty or its first
element starts with the address marker. -/
theorem splitPendingAux_addr :
    ∀ (pend ns as_ : List (List Char)),
      (as_ = [] ∨ ∃ a t, as_ = a :: t ∧ str "臺南市" <+: a) →
      ((ExtractFacilities.splitPendingAux pend ns as_).2 = [] ∨
        ∃ a t, (ExtractFacilities.splitPendingAux pend ns as_).2 = a :: t ∧
          str "臺南市" <+: a) := by
  intro pend
  induction pend with
  | nil => intro ns as_ h; simpa [ExtractFacilities.splitPendingAux] using h
  | cons e rest ih =>
    intro ns as_ h
    unfold ExtractFacilities.splitPendingAux
    by_cases hc : ((str "臺南市").isPrefixOf e || !as_.isEmpty) = true
    · rw [if_pos hc]
      apply ih
      rcases h with h0 | ⟨a, t, ha, hp⟩
      · subst h0
        right
        have hpre : (str "臺南市").isPrefixOf e = true := by simpa using hc
        exact ⟨e, [], rfl, prefixOf_eq.mp hpre⟩
      · subst ha
        right
        exact ⟨a, t ++ [e], by simp, hp⟩
    · rw [if_neg hc]
      exact ih _ _ h

/-- Every closed record's address is empty or begins with the address marker. -/
theorem closeRecord_address (pending : List (List Char)) (cap : Nat) (br : List Char) :
    (ExtractFacilities.closeRecord pending cap br).address = [] ∨
      str "臺南市" <+: (ExtractFacilities.closeRecord pending cap br).address := by
  have h := splitPendingAux_addr pending [] [] (Or.inl rfl)
  rcases h with h0 | ⟨a, t, ha, hp⟩
  · left
    show pyStrip (ExtractFacilities.splitPending pending).2.flatten = []
    rw [show (ExtractFacilities.splitPending pending).2 =
      (ExtractFacilities.splitPendingAux pending [] []).2 from rfl, h0]
    rfl
  · right
    show str "臺南市" <+: pyStrip (ExtractFacilities.splitPending pending).2.flatten
    apply strip_keeps_marker
    rw [show (ExtractFacilities.splitPending pending).2 =
      (ExtractFacilities.splitPendingAux pending [] []).2 from rfl, ha]
    rw [List.flatten_cons]
    exact hp.trans ⟨t.flatten, rfl⟩

/-- Claim C1 (counterexample): a terminal token arriving before any address token is
NOT discarded — `parse_facilities` finalizes the candidate as a record whose address
is empty (and hence does not start with the configured `臺南市` prefix). -/
theorem claim1_counterexample :
    ExtractFacilities.parse_facilities [str "聯華電子", str "100善化分局"] =
      [{ name := str "聯華電子", address := [], capacity := 100, branch := str "善化分局",
         district := none, li := none, slug := none }] ∧
    ¬ str "臺南市" <+: ([] : List Char) := by
  constructor
  · decide
  · rintro ⟨u, hu⟩
    simp at hu
    exact absurd hu.1 (by decide)

/-- Claim C1 (amended): in every record finalized by `parse_facilities` and in every
record returned by `_parse_entry`, the address is either EMPTY (the malformed case,
which is finalized rather than discarded) or starts with the configured `臺南市`
address prefix. -/
theorem claim1_amended :
    (∀ lines f, f ∈ ExtractFacilities.parse_facilities lines →
      f.address = [] ∨ str "臺南市" <+: f.address) ∧
    (∀ entry r, ExtractShelters.parseEntry entry = Except.ok r →
      r.address = [] ∨ str "臺南市" <+: r.address) := by
  have main : ∀ (lines pending : List (List Char)) f,
      f ∈ ExtractFacilities.parseFacilitiesAux lines pending →
      f.address = [] ∨ str "臺南市" <+: f.address := by
    intro lines
    induction lines with
    | nil => intro pending f hf; simp [ExtractFacilities.parseFacilitiesAux] at hf
    | cons l ls ih =>
      intro pending f hf
      unfold ExtractFacilities.parseFacilitiesAux at hf
      cases hm : ExtractFacilities.capBranchMatch l with
      | none =>
        rw [hm] at hf
        exact ih _ f hf
      | some p =>
        obtain ⟨cap, br⟩ := p
        rw [hm] at hf
        rcases List.mem_cons.mp hf with h1 | h2
        · subst h1
          exact closeRecord_address pending cap br
        · exact ih [] f h2
  constructor
  · intro lines f hf
    exact main lines [] f hf
  · intro entry r h
    unfold ExtractShelters.parseEntry at h
    repeat' split at h
    all_goals first
      | exact Except.noConfusion h
      | (injection h with h2; subst h2; exact Or.inl rfl)
      | (injection h with h2; subst h2; right; rename_i i heq; exact findSub_drop _ _ i heq)

/-- Claim C1 witness: the amended statement at a `parse_facilities` record closed
with no address token, and at a `_parse_entry` record with a `臺南市` address. -/
theorem claim1_witness :
    (({ name := [], address := [], capacity := 100, branch := str "善化分局",
        district := none, li := none, slug := none } :
          ExtractFacilities.Facility).address = [] ∨
      str "臺南市" <+:
        ({ name := [], address := [], capacity := 100, branch := str "善化分局",
           district := none, li := none, slug := none } :
            ExtractFacilities.Facility).address) ∧
    ((⟨str "新市區", str "大社里", str "學校", str "臺南市中正路9號", 50,
        str "善化分局"⟩ : ExtractShelters.ShelterRecord).address = [] ∨
      str "臺南市" <+:
        (⟨str "新市區", str "大社里", str "學校", str "臺南市中正路9號", 50,
           str "善化分局"⟩ : ExtractShelters.ShelterRecord).address) :=
  ⟨claim1_amended.1 [str "100善化分局"]
    { name := [], address := [], capacity := 100, branch := str "善化分局",
      district := none, li := none, slug := none } (by decide),
   claim1_amended.2 (str "新市區大社里學校臺南市中正路9號50善化分局")
    ⟨str "新市區", str "大社里", str "學校", str "臺南市中正路9號", 50,
      str "善化分局"⟩ (by rfl)⟩

/-- Fuel irrelevance of the decimal renderer: any sufficient fuel gives the result. -/
theorem natDigitsF_fuel :
    ∀ (f₁ f₂ n : Nat), n < f₁ → n < f₂ → natDigitsF f₁ n = natDigitsF f₂ n := by
  intro f₁
  induction f₁ with
  | zero => intro f₂ n h1 _; exact absurd h1 (Nat.not_lt_zero n)
  | succ g ih =>
    intro f₂ n h1 h2
    cases f₂ with
    | zero => exact absurd h2 (Nat.not_lt_zero n)
    | succ g2 =>
      simp only [natDigitsF]
      by_cases h : n < 10
      · rw [if_pos h, if_pos h]
      · rw [if_neg h, if_neg h, ih g2 (n / 10) (by omega) (by omega)]

/-- Unfolding equation for the decimal renderer. -/
theorem natDigits_eq (n : Nat) :
    natDigits n =
      if n < 10 then [Nat.digitChar n] else natDigits (n / 10) ++ [Nat.digitChar (n % 10)] := by
  show natDigitsF (n + 1) n = _
  simp only [natDigitsF]
  by_cases h : n < 10
  · rw [if_pos h, if_pos h]
  · rw [if_neg h, if_neg h, natDigitsF_fuel n (n / 10 + 1) (n / 10) (by omega) (by omega)]
    rfl

/-- A digit character is never the dash separator. -/
theorem digitChar_ne_dash (d : Nat) (h : d < 10) : Nat.digitChar d ≠ '-' := by
  interval_cases d <;> decide

/-- A digit character round-trips through `digitVal`. -/
theorem digitChar_val (d : Nat) (h : d < 10) : digitVal (Nat.digitChar d) = d := by
  interval_cases d <;> decide

/-- Decimal renderings contain no dash. -/
theorem natDigits_no_dash : ∀ n : Nat, '-' ∉ natDigits n := by
  intro n
  induction n using Nat.strong_induction_on with
  | _ n ih =>
    by_cases h : n < 10
    · rw [natDigits_eq, if_pos h]
      intro hm
      rcases List.mem_singleton.mp hm with hm'
      exact digitChar_ne_dash n h hm'.symm
    · rw [natDigits_eq, if_neg h]
      intro hm
      rcases List.mem_append.mp hm with hm' | hm'
      · exact ih (n / 10) (Nat.div_lt_self (by omega) (by omega)) hm'
      · rcases List.mem_singleton.mp hm' with hm''
        exact digitChar_ne_dash (n % 10) (Nat.mod_lt _ (by omega)) hm''.symm

/-- Folding the digit-value step over a decimal rendering recovers the number. -/
theorem charsToNat_fold :
    ∀ (n a : Nat),
      List.foldl (fun x c => 10 * x + digitVal c) a (natDigits n) =
        a * 10 ^ (natDigits n).length + n := by
  intro n
  induction n using Nat.strong_induction_on with
  | _ n ih =>
    intro a
    by_cases h : n < 10
    · rw [natDigits_eq, if_pos h]
      simp only [List.foldl_cons, List.foldl_nil, List.length_singleton,
        digitChar_val n h, pow_one]
      ring
    · rw [natDigits_eq, if_neg h]
      rw [List.foldl_append]
      rw [ih (n / 10) (Nat.div_lt_self (by omega) (by omega)) a]
      simp only [List.foldl_cons, List.foldl_nil, List.length_append, List.length_singleton]
      rw [digitChar_val (n % 10) (Nat.mod_lt _ (by omega))]
      have hnm : 10 * (n / 10) + n % 10 = n := by omega
      calc 10 * (a * 10 ^ (natDigits (n / 10)).length + n / 10) + n % 10
          = a * (10 ^ (natDigits (n / 10)).length * 10) + (10 * (n / 10) + n % 10) := by ring
        _ = a * 10 ^ ((natDigits (n / 10)).length + 1) + n := by rw [hnm, pow_succ]

/-- Decimal rendering is injective. -/
theorem natDigits_inj (n m : Nat) (h : natDigits n = natDigits m) : n = m := by
  have h1 := charsToNat_fold n 0
  have h2 := charsToNat_fold m 0
  rw [h] at h1
  simp only [Nat.zero_mul, Nat.zero_add] at h1 h2
  omega

/-- Splitting at the unique dash: concatenations through a dash-free head agree only
componentwise. -/
theorem append_dash_inj :
    ∀ (a b s t : List Char), '-' ∉ a → '-' ∉ b → a ++ '-' :: s = b ++ '-' :: t →
      a = b ∧ s = t := by
  intro a
  induction a with
  | nil =>
    intro b s t _ hb h
    cases b with
    | nil =>
      simp only [List.nil_append] at h
      exact ⟨rfl, (List.cons.injEq _ _ _ _).mp h |>.2⟩
    | cons y ys =>
      simp only [List.nil_append, List.cons_append] at h
      obtain ⟨h1, _⟩ := (List.cons.injEq _ _ _ _).mp h
      exact absurd (h1 ▸ List.mem_cons_self y ys) hb
  | cons x xs ih =>
    intro b s t ha hb h
    cases b with
    | nil =>
      simp only [List.nil_append, List.cons_append] at h
      obtain ⟨h1, _⟩ := (List.cons.injEq _ _ _ _).mp h
      exact absurd (h1 ▸ List.mem_cons_self x xs) ha
    | cons y ys =>
      simp only [List.cons_append] at h
      obtain ⟨h1, h2⟩ := (List.cons.injEq _ _ _ _).mp h
      obtain ⟨h3, h4⟩ := ih ys s t (fun hm => ha (List.mem_cons_of_mem _ hm))
        (fun hm => hb (List.mem_cons_of_mem _ hm)) h2
      exact ⟨by rw [h1, h3], h4⟩

/-- The slug formatter is injective on dash-free bases and positive counts. -/
theorem mkSlug_inj (b b' : List Char) (k k' : Nat) (hb : '-' ∉ b) (hb' : '-' ∉ b')
    (_hk : 1 ≤ k) (_hk' : 1 ≤ k')
    (h : GenerateSites.mkSlug b k = GenerateSites.mkSlug b' k') : b = b' ∧ k = k' := by
  unfold GenerateSites.mkSlug at h
  by_cases h1 : k = 1 <;> by_cases h2 : k' = 1
  · rw [if_pos h1, if_pos h2] at h
    exact ⟨h, by omega⟩
  · rw [if_pos h1, if_neg h2] at h
    exact absurd (h ▸ List.mem_append_right b' (List.mem_cons_self _ _)) hb
  · rw [if_neg h1, if_pos h2] at h
    exact absurd (h ▸ List.mem_append_right b (List.mem_cons_self _ _)) hb'
  · rw [if_neg h1, if_neg h2] at h
    obtain ⟨hbb, hd⟩ := append_dash_inj b b' _ _ hb hb' h
    exact ⟨hbb, natDigits_inj _ _ hd⟩

/-- Base slugs contain no dash: `-` is not alphanumeric and the fallback `facility`
is dash-free. -/
theorem baseSlug_no_dash (n : List Char) : '-' ∉ GenerateSites.baseSlug n := by
  unfold GenerateSites.baseSlug
  split
  · decide
  · intro hm
    exact absurd (List.mem_filter.mp hm).2 (by decide)

/-- Counts strictly exceed the running tally recorded for their base. -/
theorem slugKs_lt :
    ∀ (ns : List (List Char)) (counts : List (List Char × Nat)) (q : List Char),
      ∀ p ∈ GenerateSites.slugKsAux ns counts, p.1 = q →
        GenerateSites.lookupK counts q < p.2 := by
  intro ns
  induction ns with
  | nil =>
    intro counts q p hp
    simp [GenerateSites.slugKsAux] at hp
  | cons n ns ih =>
    intro counts q p hp hq
    unfold GenerateSites.slugKsAux at hp
    rcases List.mem_cons.mp hp with h1 | h2
    · subst h1
      simp only at hq
      rw [← hq]
      omega
    · have h3 := ih _ q p h2 hq
      unfold GenerateSites.lookupK at h3
      by_cases hbq : GenerateSites.baseSlug n = q
      · rw [if_pos hbq] at h3
        rw [hbq] at h3
        omega
      · rw [if_neg hbq] at h3
        exact h3

/-- Within one run of the slug loop, equal bases receive strictly increasing counts. -/
theorem slugKs_pairwise :
    ∀ (ns : List (List Char)) (counts : List (List Char × Nat)),
      (GenerateSites.slugKsAux ns counts).Pairwise (fun p q => p.1 = q.1 → p.2 < q.2) := by
  intro ns
  induction ns with
  | nil => intro counts; simp [GenerateSites.slugKsAux]
  | cons n ns ih =>
    intro counts
    unfold GenerateSites.slugKsAux
    refine List.Pairwise.cons ?_ (ih _)
    intro q hq heq
    have h := slugKs_lt ns _ q.1 q hq rfl
    unfold GenerateSites.lookupK at h
    simp only at heq
    rw [if_pos heq] at h
    exact h

/-- Every pair produced by the slug loop has a dash-free base and positive count. -/
theorem slugKs_props :
    ∀ (ns : List (List Char)) (counts : List (List Char × Nat)),
      ∀ p ∈ GenerateSites.slugKsAux ns counts, '-' ∉ p.1 ∧ 1 ≤ p.2 := by
  intro ns
  induction ns with
  | nil =>
    intro counts p hp
    simp [GenerateSites.slugKsAux] at hp
  | cons n ns ih =>
    intro counts p hp
    unfold GenerateSites.slugKsAux at hp
    rcases List.mem_cons.mp hp with h1 | h2
    · subst h1
      exact ⟨baseSlug_no_dash n, by omega⟩
    · exact ih _ p h2

/-- The emitted slugs are the formatted (base, count) pairs. -/
theorem assignSlugsAux_eq :
    ∀ (ns : List (List Char)) (counts : List (List Char × Nat)),
      GenerateSites.assignSlugsAux ns counts =
        (GenerateSites.slugKsAux ns counts).map (fun p => GenerateSites.mkSlug p.1 p.2) := by
  intro ns
  induction ns with
  | nil => intro counts; rfl
  | cons n ns ih =>
    intro counts
    unfold GenerateSites.assignSlugsAux GenerateSites.slugKsAux
    rw [List.map_cons, ih]

/-- Folding the digit-value step over leading zeros keeps the accumulator at zero. -/
theorem foldl_zeros :
    ∀ k : Nat, List.foldl (fun a c => 10 * a + digitVal c) 0 (List.replicate k '0') = 0 := by
  intro k
  induction k with
  | zero => rfl
  | succ k ih =>
    rw [List.replicate_succ, List.foldl_cons]
    exact ih

/-- Zero-padded decimal renderings contain no dash. -/
theorem pad3_no_dash (n : Nat) : '-' ∉ ExtractFacilities.pad3 n := by
  unfold ExtractFacilities.pad3
  intro hm
  rcases List.mem_append.mp hm with h | h
  · obtain ⟨-, hc⟩ := List.mem_replicate.mp h
    exact absurd hc (by decide)
  · exact natDigits_no_dash n h

/-- A zero-padded decimal rendering evaluates back to the number. -/
theorem pad3_val (n : Nat) : charsToNat (ExtractFacilities.pad3 n) = n := by
  unfold charsToNat ExtractFacilities.pad3
  rw [List.foldl_append, foldl_zeros]
  rw [charsToNat_fold n 0]
  simp

/-- Zero-padded decimal rendering is injective. -/
theorem pad3_inj (i j : Nat) (h : ExtractFacilities.pad3 i = ExtractFacilities.pad3 j) :
    i = j := by
  have hv := congrArg charsToNat h
  rw [pad3_val, pad3_val] at hv
  exact hv

/-- `slugify` embeds the sequence index injectively: records with distinct indices
always receive distinct slugs. -/
theorem slugify_index_inj (i j : Nat) (n₁ n₂ : List Char)
    (h : ExtractFacilities.slugify i n₁ = ExtractFacilities.slugify j n₂) : i = j := by
  unfold ExtractFacilities.slugify at h
  by_cases h1 : (ExtractFacilities.stripDash (ExtractFacilities.subNonAlnum n₁)).isEmpty <;>
    by_cases h2 : (ExtractFacilities.stripDash (ExtractFacilities.subNonAlnum n₂)).isEmpty
  · rw [if_pos h1, if_pos h2] at h
    exact pad3_inj i j (List.append_cancel_left h)
  · rw [if_pos h1, if_neg h2, List.append_assoc] at h
    have hd := List.append_cancel_left h
    exact absurd (hd ▸ List.mem_append_right _ (List.mem_cons_self _ _)) (pad3_no_dash i)
  · rw [if_neg h1, if_pos h2, List.append_assoc] at h
    have hd := (List.append_cancel_left h).symm
    exact absurd (hd ▸ List.mem_append_right _ (List.mem_cons_self _ _)) (pad3_no_dash j)
  · rw [if_neg h1, if_neg h2, List.append_assoc, List.append_assoc] at h
    have hd := List.append_cancel_left h
    obtain ⟨hp, -⟩ := append_dash_inj _ _ _ _ (pad3_no_dash i) (pad3_no_dash j) hd
    exact pad3_inj i j hp

/-- Claim C6 (counterexample): `slugify` of `scripts/extract_facilities.py` resolves
nothing by count suffixes: two records with the identical name `abc` at sequence
indices 1 and 2 receive the slugs `facility-001-abc` and `facility-002-abc` — the
later record's slug carries no appended `-2` suffix (the sequence index is embedded
instead), contradicting the claimed `-2`, `-3`, … collision resolution. -/
theorem claim6_counterexample :
    ExtractFacilities.slugify 1 (str "abc") = str "facility-001-abc" ∧
    ExtractFacilities.slugify 2 (str "abc") = str "facility-002-abc" ∧
    (str "-2").isSuffixOf (ExtractFacilities.slugify 2 (str "abc")) = false ∧
    ExtractFacilities.slugify 1 (str "abc") ≠ ExtractFacilities.slugify 2 (str "abc") := by
  decide

/-- Claim C6 (amended): slugs are unique under both cited schemes, but only the slug
loop of `generate_sites.py` uses count suffixes.  There the emitted slugs are
pairwise distinct and, when several records share a normalized base slug, the later
record always carries the strictly higher count (`mkSlug b 1 = b`, `mkSlug b k = b-k`
for `k ≥ 2`); `slugify` of `scripts/extract_facilities.py` instead embeds the
zero-padded sequence index in every slug, so records with distinct indices always
receive distinct slugs and no count suffix is ever appended. -/
theorem claim6_theorem (names : List (List Char)) :
    (GenerateSites.assignSlugs names).Nodup ∧
    GenerateSites.assignSlugs names =
      (GenerateSites.slugKs names).map (fun p => GenerateSites.mkSlug p.1 p.2) ∧
    (∀ (i j : Nat) (pi pj : List Char × Nat), i < j →
      (GenerateSites.slugKs names).get? i = some pi →
      (GenerateSites.slugKs names).get? j = some pj →
      pi.1 = pj.1 → pi.2 < pj.2) ∧
    (∀ (i j : Nat) (n₁ n₂ : List Char),
      ExtractFacilities.slugify i n₁ = ExtractFacilities.slugify j n₂ → i = j) := by
  have hpw := slugKs_pairwise names []
  have hprops := slugKs_props names []
  refine ⟨?_, assignSlugsAux_eq names [], ?_, fun i j n₁ n₂ h => slugify_index_inj i j n₁ n₂ h⟩
  · show (GenerateSites.assignSlugsAux names []).Pairwise (· ≠ ·)
    rw [assignSlugsAux_eq]
    refine List.pairwise_map.mpr (hpw.imp_of_mem ?_)
    intro p q hp hq hr hcontra
    obtain ⟨hb, hk⟩ := mkSlug_inj p.1 q.1 p.2 q.2 (hprops p hp).1 (hprops q hq).1
      (hprops p hp).2 (hprops q hq).2 hcontra
    have := hr hb
    omega
  · intro i j pi pj hij hi hj heq
    obtain ⟨hi', hgi⟩ := List.get?_eq_some.mp hi
    obtain ⟨hj', hgj⟩ := List.get?_eq_some.mp hj
    have h := List.pairwise_iff_getElem.mp hpw i j hi' hj' hij
    have e1 : (GenerateSites.slugKsAux names [])[i] = pi := by
      rw [List.get_eq_getElem] at hgi
      exact hgi
    have e2 : (GenerateSites.slugKsAux names [])[j] = pj := by
      rw [List.get_eq_getElem] at hgj
      exact hgj
    rw [e1, e2] at h
    exact h heq

/-- Claim C6 witness: two names with the same base slug; the later record's count is
strictly higher. -/
theorem claim6_witness :
    (GenerateSites.slugKs [str "a?b", str "a-b"]).get? 0 = some (str "ab", 1) ∧
    (GenerateSites.slugKs [str "a?b", str "a-b"]).get? 1 = some (str "ab", 2) ∧
    ((str "ab", 1) : List Char × Nat).2 < ((str "ab", 2) : List Char × Nat).2 ∧
    ExtractFacilities.slugify 2 (str "a?") = ExtractFacilities.slugify 2 (str "a!") ∧
    (2 : Nat) = 2 :=
  ⟨by decide, by decide,
    (claim6_theorem [str "a?b", str "a-b"]).2.2.1 0 1 (str "ab", 1) (str "ab", 2)
      (by decide) (by decide) (by decide) rfl,
    by decide,
    (claim6_theorem []).2.2.2 2 2 (str "a?") (str "a!") (by decide)⟩
